import Mathlib

/-!
Shallow embedding of the core of `src/src/elf/parser.rs` (the elfcat ELF
parser core): the `RangeType` tag, the `Ranges` annotation store, the
`ParsedIdent` identity record, and the `ParsedElf::from_bytes`
orchestration pipeline with its helpers `parse_ident`, `push_ident_info`
and `add_ident_ranges`.

Modelling conventions:
- bytes are `Nat` (the source reads `u8` values; all uses here are
  comparisons and decimal formatting, which agree with `Nat`);
- `Vec` indexing panics in Rust on an out-of-bounds index; a function
  that can panic is embedded with an `Option` result, `none` standing
  for the panic;
- fallible Rust functions returning `Result<_, String>` are embedded
  with `Except String _`;
- the bitness-specific structural parsers `elf32::parse` / `elf64::parse`
  are external collaborators (not part of the core source); the
  orchestrator is parameterised over them, with the contract type taken
  from the source call site: they receive the buffer, the identity
  record and the current information rows and ranges store, and return
  either an error string or the updated rows and store.
-/

/-- Modelled from the spec: the constants module (`defs.rs`) is not in the
source tree; these are the fixed identity-block byte offsets the spec's
identity-block layout fixes (magic at 0..4, class at 4, endianness at 5,
version at 6, abi at 7, abi version at 8, 16-byte block). -/
def ELF_EI_CLASS : Nat := 4

/-- Modelled from the spec: byte offset of the endianness byte. -/
def ELF_EI_DATA : Nat := 5

/-- Modelled from the spec: byte offset of the version byte. -/
def ELF_EI_VERSION : Nat := 6

/-- Modelled from the spec: byte offset of the ABI byte. -/
def ELF_EI_OSABI : Nat := 7

/-- Modelled from the spec: byte offset of the ABI-version byte. -/
def ELF_EI_ABIVERSION : Nat := 8

/-- Modelled from the spec: size of the identity block (first 16 bytes). -/
def ELF_EI_NIDENT : Nat := 16

/-- Modelled from the spec: the enumerated legal value for the 32-bit class. -/
def ELF_CLASS32 : Nat := 1

/-- Modelled from the spec: the enumerated legal value for the 64-bit class. -/
def ELF_CLASS64 : Nat := 2

/-- Modelled from the spec: the enumerated legal value for little-endian data. -/
def ELF_DATA2LSB : Nat := 1

/-- Modelled from the spec: the enumerated legal value for big-endian data. -/
def ELF_DATA2MSB : Nat := 2

/-- Modelled from the spec: the current/expected identity version value. -/
def ELF_EV_CURRENT : Nat := 1

/-- Modelled from the spec: the standard (SYSV) ABI value. -/
def ELF_OSABI_SYSV : Nat := 0

/-- Modelled from the spec: `abi_to_string` from the missing constants
module; the spec only requires a textual ABI name for the abi row value. -/
def abi_to_string (abi : Nat) : String :=
  if abi = ELF_OSABI_SYSV then "SysV" else "Unknown ABI " ++ toString abi

instance {ε α : Type _} [DecidableEq ε] [DecidableEq α] :
    DecidableEq (Except ε α) := fun a b =>
  match a, b with
  | Except.error x, Except.error y =>
    if h : x = y then isTrue (by rw [h]) else isFalse (by simp [h])
  | Except.error _, Except.ok _ => isFalse (by simp)
  | Except.ok _, Except.error _ => isFalse (by simp)
  | Except.ok x, Except.ok y =>
    if h : x = y then isTrue (by rw [h]) else isFalse (by simp [h])

/-- Info row triple `(id, label, value)`, source type `InfoTuple`. -/
abbrev InfoTuple : Type := String × String × String

/-- Source enum `RangeType` (`parser.rs` lines 7-15). -/
inductive RangeType where
  | End
  | Ident
  | FileHeader
  | ProgramHeader
  | HeaderDetail (detail : String)
  deriving DecidableEq, Repr

/-- Source struct `Ranges` (`parser.rs` lines 19-21): one slot of
range markers per byte offset. -/
structure Ranges where
  data : List (List RangeType)
  deriving DecidableEq, Repr

/-- Source struct `ParsedIdent` (`parser.rs` lines 23-30). The source
field `class` is a Lean keyword, hence the guillemets. -/
structure ParsedIdent where
  magic : List Nat
  «class» : Nat
  endianness : Nat
  version : Nat
  abi : Nat
  abi_ver : Nat
  deriving DecidableEq, Repr

/-- Source struct `ParsedElf` (`parser.rs` lines 32-37). -/
structure ParsedElf where
  filename : String
  information : List InfoTuple
  contents : List Nat
  ranges : Ranges
  deriving DecidableEq, Repr

/-- Contract type of the external bitness-specific structural parsers
(`elf32::parse` / `elf64::parse`), taken from the source call site:
`parse(&buf, &ident, &mut information, &mut ranges) -> Result<(), String>`
becomes a pure function returning the updated rows and store or an error. -/
abbrev StructuralParser : Type :=
  List Nat → ParsedIdent → List InfoTuple → Ranges → Except String (List InfoTuple × Ranges)

/-- Source `Ranges::new(capacity)` (`parser.rs` lines 107-111):
`capacity` empty slots. -/
def Ranges.new (capacity : Nat) : Ranges :=
  { data := List.replicate capacity [] }

/-- Helper for the embedding of Rust `self.data[i].push(t)`: appends `t`
to slot `i`. Callers of `Ranges.add_range` guard the index themselves. -/
def Ranges.push_at (d : List (List RangeType)) (i : Nat) (t : RangeType) :
    List (List RangeType) :=
  d.set i (d.getD i [] ++ [t])

/-- Source `Ranges::add_range(start, end, range_type)` (`parser.rs` lines
113-116): push `range_type` at slot `start` and `End` at slot
`start + end - 1` (the second argument is a length, named `end` in the
source, a Lean keyword). Rust `Vec` indexing panics out of bounds, and
`start + end - 1` underflows `usize` when `start + end = 0`; both panics
are modelled as `none`. -/
def Ranges.add_range (r : Ranges) (start len : Nat) (range_type : RangeType) :
    Option Ranges :=
  if start < r.data.length then
    let d1 := Ranges.push_at r.data start range_type
    if start + len = 0 then
      none
    else if start + len - 1 < d1.length then
      some { data := Ranges.push_at d1 (start + len - 1) RangeType.End }
    else
      none
  else
    none

/-- Source `Ranges::lookup_range_ends(point)` (`parser.rs` lines 118-123):
the number of `End` markers at slot `point`; indexing panic modelled as
`none`. -/
def Ranges.lookup_range_ends (r : Ranges) (point : Nat) : Option Nat :=
  (r.data[point]?).map fun slot =>
    (slot.filter fun x => decide (x = RangeType.End)).length

/-- Source `ParsedIdent::from_bytes` (`parser.rs` lines 127-136). The
source indexes the buffer directly; its only caller checks
`buf.len() >= ELF_EI_NIDENT` first, so `getD _ 0` is observationally
equal on every reachable input. -/
def ParsedIdent.from_bytes (buf : List Nat) : ParsedIdent :=
  { magic := [buf.getD 0 0, buf.getD 1 0, buf.getD 2 0, buf.getD 3 0]
    «class» := buf.getD ELF_EI_CLASS 0
    endianness := buf.getD ELF_EI_DATA 0
    version := buf.getD ELF_EI_VERSION 0
    abi := buf.getD ELF_EI_OSABI 0
    abi_ver := buf.getD ELF_EI_ABIVERSION 0 }

/-- Source `ParsedElf::push_ident_info` (`parser.rs` lines 183-234):
appends the identity summary rows, failing on an unknown class or
endianness value (the failing `match` arm runs before the push, so the
row is not appended on failure). -/
def ParsedElf.push_ident_info (ident : ParsedIdent)
    (information : List InfoTuple) : Except String (List InfoTuple) :=
  match (if ident.«class» = ELF_CLASS32 then Except.ok "32-bit"
         else if ident.«class» = ELF_CLASS64 then Except.ok "64-bit"
         else Except.error ("Unknown bitness: " ++ toString ident.«class»)) with
  | Except.error e => Except.error e
  | Except.ok class_str =>
    let information := information ++ [("class", "Object class", class_str)]
    match (if ident.endianness = ELF_DATA2LSB then Except.ok "Little endian"
           else if ident.endianness = ELF_DATA2MSB then Except.ok "Big endian"
           else Except.error ("Unknown endianness: " ++ toString ident.endianness)) with
    | Except.error e => Except.error e
    | Except.ok data_str =>
      let information := information ++ [("data", "Data encoding", data_str)]
      let information :=
        if ident.version ≠ ELF_EV_CURRENT then
          information ++ [("ver", "Uncommon version(!)", toString ident.version)]
        else information
      let information :=
        information ++
          [("abi",
            if ident.abi = ELF_OSABI_SYSV then "ABI" else "Uncommon ABI(!)",
            abi_to_string ident.abi)]
      let information :=
        if ¬(ident.abi = ELF_OSABI_SYSV ∧ ident.abi_ver = 0) then
          information ++
            [("abi_ver",
              if ident.abi = ELF_OSABI_SYSV ∧ ident.abi_ver ≠ 0 then
                "Uncommon ABI version(!)"
              else "ABI version",
              toString ident.abi_ver)]
        else information
      Except.ok information

/-- Source `ParsedElf::add_ident_ranges` (`parser.rs` lines 236-246): the
fixed identity-block ranges, in source order. -/
def ParsedElf.add_ident_ranges (ranges : Ranges) : Option Ranges :=
  (ranges.add_range 0 ELF_EI_NIDENT RangeType.Ident).bind fun r =>
  (r.add_range 0 4 (RangeType.HeaderDetail "magic")).bind fun r =>
  (r.add_range 4 1 (RangeType.HeaderDetail "class")).bind fun r =>
  (r.add_range 5 1 (RangeType.HeaderDetail "data")).bind fun r =>
  (r.add_range 6 1 (RangeType.HeaderDetail "ver")).bind fun r =>
  (r.add_range 7 1 (RangeType.HeaderDetail "abi")).bind fun r =>
  (r.add_range 8 1 (RangeType.HeaderDetail "abi_ver")).bind fun r =>
  r.add_range 9 7 (RangeType.HeaderDetail "pad")

/-- Source `ParsedElf::parse_ident` (`parser.rs` lines 171-181): push the
identity rows, then register the identity ranges; the row step runs
first, so its error surfaces before any range indexing. -/
def ParsedElf.parse_ident (ident : ParsedIdent) (information : List InfoTuple)
    (ranges : Ranges) : Option (Except String (List InfoTuple × Ranges)) :=
  match ParsedElf.push_ident_info ident information with
  | Except.error e => some (Except.error e)
  | Except.ok information =>
    match ParsedElf.add_ident_ranges ranges with
    | none => none
    | some ranges => some (Except.ok (information, ranges))

/-- Source `ParsedElf::from_bytes` (`parser.rs` lines 140-169),
parameterised over the two external structural parsers. Pipeline: size
guard, identity parse, magic check, class dispatch (everything that is
not `ELF_CLASS32` goes to the 64-bit parser), identity summary, result
construction. `none` models a panic; `some (Except.error e)` a returned
error; `some (Except.ok pe)` success. -/
def ParsedElf.from_bytes (p32 p64 : StructuralParser) (filename : String)
    (buf : List Nat) : Option (Except String ParsedElf) :=
  if buf.length < ELF_EI_NIDENT then
    some (Except.error "file is smaller than ELF header's e_ident")
  else
    let ident := ParsedIdent.from_bytes buf
    if ident.magic ≠ [0x7f, 0x45, 0x4c, 0x46] then
      some (Except.error "mismatched magic: not an ELF file")
    else
      let ranges := Ranges.new buf.length
      let information : List InfoTuple := []
      match (if ident.«class» = ELF_CLASS32 then p32 buf ident information ranges
             else p64 buf ident information ranges) with
      | Except.error e => some (Except.error e)
      | Except.ok (information, ranges) =>
        match ParsedElf.parse_ident ident information ranges with
        | none => none
        | some (Except.error e) => some (Except.error e)
        | some (Except.ok (information, ranges)) =>
          some (Except.ok
            { filename := filename, information := information,
              contents := buf, ranges := ranges })

/-- Structural-parser stub that succeeds without touching the
accumulators; used to instantiate parametric theorems at concrete
inputs. -/
def stub_parse_ok : StructuralParser :=
  fun _ _ information ranges => Except.ok (information, ranges)

/-- Structural-parser stub that fails with a fixed opaque message, as the
collaborator contract allows. -/
def stub_parse_err : StructuralParser :=
  fun _ _ _ _ => Except.error "structural parser failure"

/-- Minimal well-formed 16-byte buffer: valid magic, 32-bit class, little
endian, current version, SYSV abi, abi version 0, zero padding. -/
def sample_buf : List Nat :=
  [0x7f, 0x45, 0x4c, 0x46, 1, 1, 1, 0, 0, 0, 0, 0, 0, 0, 0, 0]

/-- Result of parsing `sample_buf` with structural parsers that append
nothing: three identity info rows and the fixed identity-block ranges in
their 16 slots. -/
def sample_parsed : ParsedElf :=
  { filename := "f"
    information :=
      [("class", "Object class", "32-bit"),
       ("data", "Data encoding", "Little endian"),
       ("abi", "ABI", "SysV")]
    contents := sample_buf
    ranges :=
      { data :=
          [[RangeType.Ident, RangeType.HeaderDetail "magic"],
           [], [],
           [RangeType.End],
           [RangeType.HeaderDetail "class", RangeType.End],
           [RangeType.HeaderDetail "data", RangeType.End],
           [RangeType.HeaderDetail "ver", RangeType.End],
           [RangeType.HeaderDetail "abi", RangeType.End],
           [RangeType.HeaderDetail "abi_ver", RangeType.End],
           [RangeType.HeaderDetail "pad"],
           [], [], [], [], [],
           [RangeType.End, RangeType.End]] } }

theorem Ranges.push_at_length (d : List (List RangeType)) (i : Nat)
    (t : RangeType) : (Ranges.push_at d i t).length = d.length := by
  simp [Ranges.push_at]

theorem Ranges.getElem_push_at_ne (d : List (List RangeType)) (i j : Nat)
    (t : RangeType) (h : i ≠ j) : (Ranges.push_at d i t)[j]? = d[j]? := by
  simp [Ranges.push_at, List.getElem?_set_ne h]

theorem Ranges.getElem_push_at_self (d : List (List RangeType)) (i : Nat)
    (t : RangeType) (h : i < d.length) :
    (Ranges.push_at d i t)[i]? = some (d.getD i [] ++ [t]) := by
  simp [Ranges.push_at, List.getElem?_set_self h]

theorem Ranges.getElem_eq_getD (d : List (List RangeType)) (i : Nat)
    (h : i < d.length) : d[i]? = some (d.getD i []) := by
  simp [List.getD_eq_getElem?_getD, List.getElem?_eq_getElem h]

theorem Ranges.push_at_getD_self (d : List (List RangeType)) (i : Nat)
    (t : RangeType) (h : i < d.length) :
    (Ranges.push_at d i t).getD i [] = d.getD i [] ++ [t] := by
  simp [List.getD_eq_getElem?_getD, Ranges.getElem_push_at_self d i t h]

theorem Ranges.push_at_getD_ne (d : List (List RangeType)) (i j : Nat)
    (t : RangeType) (h : i ≠ j) :
    (Ranges.push_at d i t).getD j [] = d.getD j [] := by
  simp [List.getD_eq_getElem?_getD, Ranges.getElem_push_at_ne d i j t h]

theorem Ranges.lookup_range_ends_of_lt (r : Ranges) (q : Nat)
    (h : q < r.data.length) :
    r.lookup_range_ends q =
      some ((r.data.getD q []).filter fun x => decide (x = RangeType.End)).length := by
  unfold Ranges.lookup_range_ends
  rw [Ranges.getElem_eq_getD r.data q h]
  rfl

theorem Ranges.lookup_mk_of_lt (d : List (List RangeType)) (q : Nat)
    (h : q < d.length) :
    Ranges.lookup_range_ends (Ranges.mk d) q =
      some ((d.getD q []).filter fun x => decide (x = RangeType.End)).length := by
  unfold Ranges.lookup_range_ends
  rw [Ranges.getElem_eq_getD d q h]
  rfl

theorem filter_end_append_end (slot : List RangeType) :
    ((slot ++ [RangeType.End]).filter fun x => decide (x = RangeType.End)).length =
      ((slot.filter fun x => decide (x = RangeType.End)).length) + 1 := by
  simp [List.filter_append]

theorem filter_end_append_other (slot : List RangeType) (t : RangeType)
    (ht : t ≠ RangeType.End) :
    ((slot ++ [t]).filter fun x => decide (x = RangeType.End)).length =
      (slot.filter fun x => decide (x = RangeType.End)).length := by
  simp [List.filter_append, ht]

theorem Ranges.add_range_eq_some (r : Ranges) (s l : Nat) (t : RangeType)
    (hl : 1 ≤ l) (hb : s + l - 1 < r.data.length) :
    r.add_range s l t =
      some { data := Ranges.push_at (Ranges.push_at r.data s t) (s + l - 1)
              RangeType.End } := by
  have hs : s < r.data.length := by omega
  have hne0 : ¬ (s + l = 0) := by omega
  have hb1 : s + l - 1 < (Ranges.push_at r.data s t).length := by
    rw [Ranges.push_at_length]
    exact hb
  simp [Ranges.add_range, hs, hne0, hb1]

theorem Ranges.add_range_length (r : Ranges) (s l : Nat) (t : RangeType)
    (r2 : Ranges) (h : r.add_range s l t = some r2) :
    r2.data.length = r.data.length := by
  by_cases hs : s < r.data.length
  · by_cases h0 : s + l = 0
    · simp [Ranges.add_range, hs, h0] at h
    · by_cases hb : s + l - 1 < (Ranges.push_at r.data s t).length
      · simp [Ranges.add_range, hs, h0, hb] at h
        rw [← h]
        simp [Ranges.push_at_length]
      · simp [Ranges.add_range, hs, h0, hb] at h
  · simp [Ranges.add_range, hs] at h

/-- C3 counterexample: the claim quantifies over every range type `T`,
and the end-marker type `End` is one of them; `addRange(0, 2, End)` on a
2-slot store pushes an `End` marker at offset 0, so `lookupRangeEnds(0)`
— an offset in `[s, s + l − 2]` — changes from 0 to 1. -/
theorem claim_C3_counterexample :
    (Ranges.new 2).add_range 0 2 RangeType.End =
      some { data := [[RangeType.End], [RangeType.End]] } ∧
    (Ranges.new 2).lookup_range_ends 0 = some 0 ∧
    ({ data := [[RangeType.End], [RangeType.End]] } : Ranges).lookup_range_ends 0 =
      some 1 :=
  ⟨by decide, by decide, by decide⟩

/-- C3 amended: for every store, every range type `T` other than the end
marker `End`, and every in-bounds start `s` and length `l ≥ 1`:
`addRange(s, l, T)` succeeds, `lookupRangeEnds(s + l − 1)` is exactly one
greater than before, and `lookupRangeEnds` is unchanged at every offset
in `[s, s + l − 2]`. -/
theorem claim_C3_add_range_end_counts (r : Ranges) (s l : Nat) (t : RangeType)
    (hl : 1 ≤ l) (hb : s + l - 1 < r.data.length) (ht : t ≠ RangeType.End) :
    ∃ r2, r.add_range s l t = some r2 ∧
      r2.lookup_range_ends (s + l - 1) =
        (r.lookup_range_ends (s + l - 1)).map (fun c => c + 1) ∧
      ∀ p, s ≤ p → p < s + l - 1 →
        r2.lookup_range_ends p = r.lookup_range_ends p := by
  have hs : s < r.data.length := by omega
  have hb1 : s + l - 1 < (Ranges.push_at r.data s t).length := by
    rw [Ranges.push_at_length]
    exact hb
  refine ⟨_, Ranges.add_range_eq_some r s l t hl hb, ?_, ?_⟩
  · have hlen2 : s + l - 1 <
        (Ranges.push_at (Ranges.push_at r.data s t) (s + l - 1)
          RangeType.End).length := by
      rw [Ranges.push_at_length, Ranges.push_at_length]
      exact hb
    rw [Ranges.lookup_mk_of_lt _ _ hlen2,
      Ranges.lookup_range_ends_of_lt r _ hb,
      Ranges.push_at_getD_self _ _ _ hb1, filter_end_append_end]
    by_cases hcase : s = s + l - 1
    · rw [← hcase, Ranges.push_at_getD_self r.data s t hs,
        filter_end_append_other _ t ht]
      simp
    · rw [Ranges.push_at_getD_ne r.data s (s + l - 1) t hcase]
      simp
  · intro p hsp hpe
    have hple : p < r.data.length := by omega
    have hlen2 : p <
        (Ranges.push_at (Ranges.push_at r.data s t) (s + l - 1)
          RangeType.End).length := by
      rw [Ranges.push_at_length, Ranges.push_at_length]
      omega
    rw [Ranges.lookup_mk_of_lt _ _ hlen2,
      Ranges.lookup_range_ends_of_lt r _ hple,
      Ranges.push_at_getD_ne _ _ _ _ (by omega : s + l - 1 ≠ p)]
    by_cases hcase : s = p
    · rw [← hcase, Ranges.push_at_getD_self r.data s t hs,
        filter_end_append_other _ t ht]
    · rw [Ranges.push_at_getD_ne r.data s p t hcase]

theorem claim_C3_witness :
    1 ≤ 3 ∧ 1 + 3 - 1 < (Ranges.new 4).data.length ∧
      RangeType.FileHeader ≠ RangeType.End ∧
      ∃ r2, (Ranges.new 4).add_range 1 3 RangeType.FileHeader = some r2 ∧
        r2.lookup_range_ends (1 + 3 - 1) =
          ((Ranges.new 4).lookup_range_ends (1 + 3 - 1)).map (fun c => c + 1) ∧
        ∀ p, 1 ≤ p → p < 1 + 3 - 1 →
          r2.lookup_range_ends p = (Ranges.new 4).lookup_range_ends p :=
  ⟨by decide, by decide, by decide,
    claim_C3_add_range_end_counts (Ranges.new 4) 1 3 RangeType.FileHeader
      (by decide) (by decide) (by decide)⟩

/-- C4 counterexample: `addRange(5, 1, Ident)` on a store of capacity 1
violates the bounds precondition and faults (a `Vec` index panic,
modelled as `none`); no validation error value is returned — the source
does not guard the call. -/
theorem claim_C4_counterexample :
    (Ranges.new 1).add_range 5 1 RangeType.Ident = none := by
  decide

/-- C4 amended: `addRange` does not guard its preconditions; every call
with `length ≥ 1` and `start + length − 1 ≥ capacity` faults with an
index panic (modelled as `none`) instead of returning a validation
error. -/
theorem claim_C4_add_range_unguarded (r : Ranges) (s l : Nat) (t : RangeType)
    (hl : 1 ≤ l) (hb : r.data.length ≤ s + l - 1) :
    r.add_range s l t = none := by
  by_cases hs : s < r.data.length
  · have h0 : ¬ (s + l = 0) := by omega
    have hnb : ¬ (s + l - 1 < (Ranges.push_at r.data s t).length) := by
      rw [Ranges.push_at_length]
      omega
    simp [Ranges.add_range, hs, h0, hnb]
  · simp [Ranges.add_range, hs]

theorem claim_C4_witness :
    1 ≤ 1 ∧ (Ranges.new 2).data.length ≤ 7 + 1 - 1 ∧
      (Ranges.new 2).add_range 7 1 RangeType.FileHeader = none :=
  ⟨by decide, by decide,
    claim_C4_add_range_unguarded (Ranges.new 2) 7 1 RangeType.FileHeader
      (by decide) (by decide)⟩

/-- C6: every buffer shorter than 16 bytes is rejected with the
too-small error; the result is the same for all structural parsers
(so none is invoked) and is an error, so no `ParsedElf` is constructed. -/
theorem claim_C6_too_small (p32 p64 : StructuralParser) (filename : String)
    (buf : List Nat) (h : buf.length < 16) :
    ParsedElf.from_bytes p32 p64 filename buf =
      some (Except.error "file is smaller than ELF header's e_ident") := by
  simp [ParsedElf.from_bytes, ELF_EI_NIDENT, h]

theorem claim_C6_witness :
    ([] : List Nat).length < 16 ∧
      ParsedElf.from_bytes stub_parse_ok stub_parse_err "f" [] =
        some (Except.error "file is smaller than ELF header's e_ident") :=
  ⟨by decide, claim_C6_too_small stub_parse_ok stub_parse_err "f" [] (by decide)⟩

/-- C1 counterexample: for the fully-default identity record (64-bit,
little endian, current version, SYSV abi, abi version 0) the
identity-summary step appends three rows, not two: the `abi` row is
appended unconditionally. -/
theorem claim_C1_counterexample :
    ParsedElf.push_ident_info
        { magic := [0x7f, 0x45, 0x4c, 0x46], «class» := ELF_CLASS64,
          endianness := ELF_DATA2LSB, version := ELF_EV_CURRENT,
          abi := ELF_OSABI_SYSV, abi_ver := 0 } [] =
      Except.ok
        [("class", "Object class", "64-bit"),
         ("data", "Data encoding", "Little endian"),
         ("abi", "ABI", "SysV")] ∧
    ([("class", "Object class", "64-bit"),
      ("data", "Data encoding", "Little endian"),
      ("abi", "ABI", "SysV")] : List InfoTuple).length ≠ 2 :=
  ⟨by decide, by decide⟩

/-- C1 amended: for every identity record with class = 64-bit, endianness
= little, version = current, abi = SYSV and abi version 0, the
identity-summary step appends exactly three rows: `class` → "64-bit",
`data` → "Little endian", and the unconditional `abi` → "ABI" row; no
`ver` or `abi_ver` row is emitted. -/
theorem claim_C1_default_ident_rows (ident : ParsedIdent)
    (information : List InfoTuple)
    (h1 : ident.«class» = ELF_CLASS64) (h2 : ident.endianness = ELF_DATA2LSB)
    (h3 : ident.version = ELF_EV_CURRENT) (h4 : ident.abi = ELF_OSABI_SYSV)
    (h5 : ident.abi_ver = 0) :
    ParsedElf.push_ident_info ident information =
      Except.ok (information ++
        [("class", "Object class", "64-bit"),
         ("data", "Data encoding", "Little endian"),
         ("abi", "ABI", abi_to_string ELF_OSABI_SYSV)]) := by
  simp [ParsedElf.push_ident_info, h1, h2, h3, h4, h5, ELF_CLASS32,
    ELF_CLASS64, ELF_DATA2LSB, ELF_EV_CURRENT, ELF_OSABI_SYSV]

theorem claim_C1_default_ident_rows_witness :
    ParsedElf.push_ident_info
        { magic := [0x7f, 0x45, 0x4c, 0x46], «class» := ELF_CLASS64,
          endianness := ELF_DATA2LSB, version := ELF_EV_CURRENT,
          abi := ELF_OSABI_SYSV, abi_ver := 0 } [("x", "y", "z")] =
      Except.ok ([("x", "y", "z")] ++
        [("class", "Object class", "64-bit"),
         ("data", "Data encoding", "Little endian"),
         ("abi", "ABI", abi_to_string ELF_OSABI_SYSV)]) :=
  claim_C1_default_ident_rows _ _ rfl rfl rfl rfl rfl

/-- C7: an `abi_ver` row appears in the identity summary exactly when it
is not the case that abi is SYSV with abi version 0; the label is the
anomalous "Uncommon ABI version(!)" when abi is SYSV with nonzero
version, and "ABI version" when abi is non-standard; the value is the
decimal abi version. Stated for valid class and endianness so the
summary step succeeds. -/
theorem claim_C7_abi_ver_row (ident : ParsedIdent)
    (hc : ident.«class» = ELF_CLASS32 ∨ ident.«class» = ELF_CLASS64)
    (he : ident.endianness = ELF_DATA2LSB ∨ ident.endianness = ELF_DATA2MSB) :
    ∃ rows, ParsedElf.push_ident_info ident [] = Except.ok rows ∧
      rows.filter (fun row => decide (row.1 = "abi_ver")) =
        (if ¬(ident.abi = ELF_OSABI_SYSV ∧ ident.abi_ver = 0) then
          [("abi_ver",
            if ident.abi = ELF_OSABI_SYSV ∧ ident.abi_ver ≠ 0 then
              "Uncommon ABI version(!)"
            else "ABI version",
            toString ident.abi_ver)]
        else []) := by
  rcases hc with hc | hc <;> rcases he with he | he <;>
    by_cases hv : ident.version = ELF_EV_CURRENT <;>
    by_cases ha : ident.abi = ELF_OSABI_SYSV ∧ ident.abi_ver = 0 <;>
    simp [ParsedElf.push_ident_info, hc, he, hv, ha, ELF_CLASS32,
      ELF_CLASS64, ELF_DATA2LSB, ELF_DATA2MSB, List.filter] <;>
    aesop

/-- C2 counterexample: a 16-byte buffer with valid magic and the unknown
class value 7, parsed with a 64-bit structural parser that fails, yields
the structural parser's error, not the unknown-class error: the class
check is not a hard stop before the bitness-specific parser runs. -/
theorem claim_C2_counterexample :
    ParsedElf.from_bytes stub_parse_ok stub_parse_err "f"
        [0x7f, 0x45, 0x4c, 0x46, 7, 1, 1, 0, 0, 0, 0, 0, 0, 0, 0, 0] =
      some (Except.error "structural parser failure") ∧
    "structural parser failure" ≠ "Unknown bitness: 7" :=
  ⟨by decide, by decide⟩

/-- C2 amended: for every buffer of length at least 16 with valid magic
and a class byte that is neither 32-bit nor 64-bit, the 64-bit
structural parser is invoked first; if it fails its error is returned,
and only if it succeeds does parsing fail with the unknown-class error
naming the value. -/
theorem claim_C2_unknown_class (p32 p64 : StructuralParser) (filename : String)
    (buf : List Nat) (h16 : 16 ≤ buf.length)
    (hm : (ParsedIdent.from_bytes buf).magic = [0x7f, 0x45, 0x4c, 0x46])
    (hc1 : (ParsedIdent.from_bytes buf).«class» ≠ ELF_CLASS32)
    (hc2 : (ParsedIdent.from_bytes buf).«class» ≠ ELF_CLASS64) :
    ParsedElf.from_bytes p32 p64 filename buf =
      match p64 buf (ParsedIdent.from_bytes buf) [] (Ranges.new buf.length) with
      | Except.error e => some (Except.error e)
      | Except.ok _ =>
        some (Except.error
          ("Unknown bitness: " ++ toString (ParsedIdent.from_bytes buf).«class»)) := by
  have hlt : ¬ buf.length < ELF_EI_NIDENT := by
    simp only [ELF_EI_NIDENT]
    omega
  cases h : p64 buf (ParsedIdent.from_bytes buf) [] (Ranges.new buf.length) with
  | error e =>
    simp [ParsedElf.from_bytes, hlt, hm, hc1, h]
  | ok res =>
    obtain ⟨info1, r1⟩ := res
    simp [ParsedElf.from_bytes, hlt, hm, hc1, h, ParsedElf.parse_ident,
      ParsedElf.push_ident_info, hc2]

theorem claim_C2_unknown_class_witness :
    16 ≤ ([0x7f, 0x45, 0x4c, 0x46, 7, 1, 1, 0, 0, 0, 0, 0, 0, 0, 0, 0] :
        List Nat).length ∧
    ParsedElf.from_bytes stub_parse_ok stub_parse_ok "f"
        [0x7f, 0x45, 0x4c, 0x46, 7, 1, 1, 0, 0, 0, 0, 0, 0, 0, 0, 0] =
      match stub_parse_ok [0x7f, 0x45, 0x4c, 0x46, 7, 1, 1, 0, 0, 0, 0, 0, 0, 0, 0, 0]
          (ParsedIdent.from_bytes
            [0x7f, 0x45, 0x4c, 0x46, 7, 1, 1, 0, 0, 0, 0, 0, 0, 0, 0, 0]) []
          (Ranges.new ([0x7f, 0x45, 0x4c, 0x46, 7, 1, 1, 0, 0, 0, 0, 0, 0, 0, 0, 0] :
            List Nat).length) with
      | Except.error e => some (Except.error e)
      | Except.ok _ =>
        some (Except.error
          ("Unknown bitness: " ++
            toString (ParsedIdent.from_bytes
              [0x7f, 0x45, 0x4c, 0x46, 7, 1, 1, 0, 0, 0, 0, 0, 0, 0, 0, 0]).«class»)) :=
  ⟨by decide,
    claim_C2_unknown_class stub_parse_ok stub_parse_ok "f" _
      (by decide) (by decide) (by decide) (by decide)⟩

/-- C5: for every buffer of length at least 16 with valid magic, a valid
class byte and an endianness byte that is neither little nor big, the
bitness-specific structural parser (selected by the class byte) is
invoked; a failure of that parser is returned as is, and only on its
success does parsing fail with the unknown-endianness error naming the
value — so endianness is never validated during the early gate. -/
theorem claim_C5_endianness_after_structural (p32 p64 : StructuralParser)
    (filename : String) (buf : List Nat) (h16 : 16 ≤ buf.length)
    (hm : (ParsedIdent.from_bytes buf).magic = [0x7f, 0x45, 0x4c, 0x46])
    (hc : (ParsedIdent.from_bytes buf).«class» = ELF_CLASS32 ∨
          (ParsedIdent.from_bytes buf).«class» = ELF_CLASS64)
    (he1 : (ParsedIdent.from_bytes buf).endianness ≠ ELF_DATA2LSB)
    (he2 : (ParsedIdent.from_bytes buf).endianness ≠ ELF_DATA2MSB) :
    ParsedElf.from_bytes p32 p64 filename buf =
      match (if (ParsedIdent.from_bytes buf).«class» = ELF_CLASS32 then p32 else p64)
          buf (ParsedIdent.from_bytes buf) [] (Ranges.new buf.length) with
      | Except.error e => some (Except.error e)
      | Except.ok _ =>
        some (Except.error
          ("Unknown endianness: " ++
            toString (ParsedIdent.from_bytes buf).endianness)) := by
  have hlt : ¬ buf.length < ELF_EI_NIDENT := by
    simp only [ELF_EI_NIDENT]
    omega
  rcases hc with hc | hc
  · cases h : p32 buf (ParsedIdent.from_bytes buf) [] (Ranges.new buf.length) with
    | error e =>
      simp [ParsedElf.from_bytes, hlt, hm, hc, h, ELF_CLASS32, ELF_CLASS64]
    | ok res =>
      obtain ⟨info1, r1⟩ := res
      simp [ParsedElf.from_bytes, hlt, hm, hc, h, ParsedElf.parse_ident,
        ParsedElf.push_ident_info, he1, he2, ELF_CLASS32, ELF_CLASS64]
  · cases h : p64 buf (ParsedIdent.from_bytes buf) [] (Ranges.new buf.length) with
    | error e =>
      simp [ParsedElf.from_bytes, hlt, hm, hc, h, ELF_CLASS32, ELF_CLASS64]
    | ok res =>
      obtain ⟨info1, r1⟩ := res
      simp [ParsedElf.from_bytes, hlt, hm, hc, h, ParsedElf.parse_ident,
        ParsedElf.push_ident_info, he1, he2, ELF_CLASS32, ELF_CLASS64]

theorem claim_C5_witness :
    16 ≤ ([0x7f, 0x45, 0x4c, 0x46, 2, 5, 1, 0, 0, 0, 0, 0, 0, 0, 0, 0] :
        List Nat).length ∧
    ParsedElf.from_bytes stub_parse_ok stub_parse_ok "f"
        [0x7f, 0x45, 0x4c, 0x46, 2, 5, 1, 0, 0, 0, 0, 0, 0, 0, 0, 0] =
      match (if (ParsedIdent.from_bytes
              [0x7f, 0x45, 0x4c, 0x46, 2, 5, 1, 0, 0, 0, 0, 0, 0, 0, 0, 0]).«class» =
            ELF_CLASS32 then stub_parse_ok else stub_parse_ok)
          [0x7f, 0x45, 0x4c, 0x46, 2, 5, 1, 0, 0, 0, 0, 0, 0, 0, 0, 0]
          (ParsedIdent.from_bytes
            [0x7f, 0x45, 0x4c, 0x46, 2, 5, 1, 0, 0, 0, 0, 0, 0, 0, 0, 0]) []
          (Ranges.new ([0x7f, 0x45, 0x4c, 0x46, 2, 5, 1, 0, 0, 0, 0, 0, 0, 0, 0, 0] :
            List Nat).length) with
      | Except.error e => some (Except.error e)
      | Except.ok _ =>
        some (Except.error
          ("Unknown endianness: " ++
            toString (ParsedIdent.from_bytes
              [0x7f, 0x45, 0x4c, 0x46, 2, 5, 1, 0, 0, 0, 0, 0, 0, 0, 0, 0]).endianness)) :=
  ⟨by decide,
    claim_C5_endianness_after_structural stub_parse_ok stub_parse_ok "f" _
      (by decide) (by decide) (Or.inr (by decide)) (by decide) (by decide)⟩

/-- C10: for every buffer of length at least 16 with valid magic whose
class byte is not the 32-bit value — unknown class values included — the
64-bit structural parser is the one invoked, and the whole parse result
is the continuation of the pipeline on that parser's output; the 32-bit
parser plays no role. -/
theorem claim_C10_class_dispatch (p32 p64 : StructuralParser)
    (filename : String) (buf : List Nat) (h16 : 16 ≤ buf.length)
    (hm : (ParsedIdent.from_bytes buf).magic = [0x7f, 0x45, 0x4c, 0x46])
    (hc : (ParsedIdent.from_bytes buf).«class» ≠ ELF_CLASS32) :
    ParsedElf.from_bytes p32 p64 filename buf =
      match p64 buf (ParsedIdent.from_bytes buf) [] (Ranges.new buf.length) with
      | Except.error e => some (Except.error e)
      | Except.ok (information, ranges) =>
        match ParsedElf.parse_ident (ParsedIdent.from_bytes buf) information ranges with
        | none => none
        | some (Except.error e) => some (Except.error e)
        | some (Except.ok (information, ranges)) =>
          some (Except.ok
            { filename := filename, information := information,
              contents := buf, ranges := ranges }) := by
  have hlt : ¬ buf.length < ELF_EI_NIDENT := by
    simp only [ELF_EI_NIDENT]
    omega
  simp [ParsedElf.from_bytes, hlt, hm, hc]

theorem claim_C10_witness :
    16 ≤ ([0x7f, 0x45, 0x4c, 0x46, 9, 1, 1, 0, 0, 0, 0, 0, 0, 0, 0, 0] :
        List Nat).length ∧
    (ParsedIdent.from_bytes
      [0x7f, 0x45, 0x4c, 0x46, 9, 1, 1, 0, 0, 0, 0, 0, 0, 0, 0, 0]).«class» ≠
        ELF_CLASS32 ∧
    ParsedElf.from_bytes stub_parse_err stub_parse_ok "f"
        [0x7f, 0x45, 0x4c, 0x46, 9, 1, 1, 0, 0, 0, 0, 0, 0, 0, 0, 0] =
      match stub_parse_ok [0x7f, 0x45, 0x4c, 0x46, 9, 1, 1, 0, 0, 0, 0, 0, 0, 0, 0, 0]
          (ParsedIdent.from_bytes
            [0x7f, 0x45, 0x4c, 0x46, 9, 1, 1, 0, 0, 0, 0, 0, 0, 0, 0, 0]) []
          (Ranges.new ([0x7f, 0x45, 0x4c, 0x46, 9, 1, 1, 0, 0, 0, 0, 0, 0, 0, 0, 0] :
            List Nat).length) with
      | Except.error e => some (Except.error e)
      | Except.ok (information, ranges) =>
        match ParsedElf.parse_ident
            (ParsedIdent.from_bytes
              [0x7f, 0x45, 0x4c, 0x46, 9, 1, 1, 0, 0, 0, 0, 0, 0, 0, 0, 0])
            information ranges with
        | none => none
        | some (Except.error e) => some (Except.error e)
        | some (Except.ok (information, ranges)) =>
          some (Except.ok
            { filename := "f", information := information,
              contents := [0x7f, 0x45, 0x4c, 0x46, 9, 1, 1, 0, 0, 0, 0, 0, 0, 0, 0, 0],
              ranges := ranges }) :=
  ⟨by decide, by decide,
    claim_C10_class_dispatch stub_parse_err stub_parse_ok "f" _
      (by decide) (by decide) (by decide)⟩

theorem claim_C7_witness :
    ∃ rows,
      ParsedElf.push_ident_info
          { magic := [0x7f, 0x45, 0x4c, 0x46], «class» := ELF_CLASS64,
            endianness := ELF_DATA2LSB, version := ELF_EV_CURRENT,
            abi := ELF_OSABI_SYSV, abi_ver := 3 } [] = Except.ok rows ∧
      rows.filter (fun row => decide (row.1 = "abi_ver")) =
        [("abi_ver", "Uncommon ABI version(!)", "3")] := by
  have h := claim_C7_abi_ver_row
    { magic := [0x7f, 0x45, 0x4c, 0x46], «class» := ELF_CLASS64,
      endianness := ELF_DATA2LSB, version := ELF_EV_CURRENT,
      abi := ELF_OSABI_SYSV, abi_ver := 3 } (Or.inr rfl) (Or.inl rfl)
  simpa using h

theorem ParsedElf.add_ident_ranges_length (r r2 : Ranges)
    (h : ParsedElf.add_ident_ranges r = some r2) :
    r2.data.length = r.data.length := by
  unfold ParsedElf.add_ident_ranges at h
  simp only [Option.bind_eq_some] at h
  obtain ⟨a1, h1, a2, h2, a3, h3, a4, h4, a5, h5, a6, h6, a7, h7, h8⟩ := h
  have e1 := Ranges.add_range_length _ _ _ _ _ h1
  have e2 := Ranges.add_range_length _ _ _ _ _ h2
  have e3 := Ranges.add_range_length _ _ _ _ _ h3
  have e4 := Ranges.add_range_length _ _ _ _ _ h4
  have e5 := Ranges.add_range_length _ _ _ _ _ h5
  have e6 := Ranges.add_range_length _ _ _ _ _ h6
  have e7 := Ranges.add_range_length _ _ _ _ _ h7
  have e8 := Ranges.add_range_length _ _ _ _ _ h8
  omega

theorem ParsedElf.from_bytes_ok_inv (p32 p64 : StructuralParser)
    (filename : String) (buf : List Nat) (pe : ParsedElf)
    (h : ParsedElf.from_bytes p32 p64 filename buf = some (Except.ok pe)) :
    ∃ info1 r1 info2 r2,
      (if (ParsedIdent.from_bytes buf).«class» = ELF_CLASS32 then
          p32 buf (ParsedIdent.from_bytes buf) [] (Ranges.new buf.length)
        else p64 buf (ParsedIdent.from_bytes buf) [] (Ranges.new buf.length)) =
        Except.ok (info1, r1) ∧
      ParsedElf.push_ident_info (ParsedIdent.from_bytes buf) info1 =
        Except.ok info2 ∧
      ParsedElf.add_ident_ranges r1 = some r2 ∧
      pe = { filename := filename, information := info2,
             contents := buf, ranges := r2 } := by
  by_cases hlen : buf.length < ELF_EI_NIDENT
  · simp [ParsedElf.from_bytes, hlen] at h
  · by_cases hm : (ParsedIdent.from_bytes buf).magic = [0x7f, 0x45, 0x4c, 0x46]
    · cases hd : (if (ParsedIdent.from_bytes buf).«class» = ELF_CLASS32 then
          p32 buf (ParsedIdent.from_bytes buf) [] (Ranges.new buf.length)
        else p64 buf (ParsedIdent.from_bytes buf) [] (Ranges.new buf.length)) with
      | error e =>
        simp [ParsedElf.from_bytes, hlen, hm, hd] at h
      | ok pr =>
        obtain ⟨info1, r1⟩ := pr
        cases hp : ParsedElf.push_ident_info (ParsedIdent.from_bytes buf) info1 with
        | error e =>
          simp [ParsedElf.from_bytes, hlen, hm, hd, ParsedElf.parse_ident, hp] at h
        | ok info2 =>
          cases ha : ParsedElf.add_ident_ranges r1 with
          | none =>
            simp [ParsedElf.from_bytes, hlen, hm, hd, ParsedElf.parse_ident,
              hp, ha] at h
          | some r2 =>
            simp [ParsedElf.from_bytes, hlen, hm, hd, ParsedElf.parse_ident,
              hp, ha] at h
            refine ⟨info1, r1, info2, r2, rfl, hp, ha, ?_⟩
            cases pe with
            | mk f i c rg => simp_all
    · simp [ParsedElf.from_bytes, hlen, hm] at h

/-- C8: on every successful parse, the final ranges store is obtained
from the structural parser's output store by the fixed identity-range
registrations, in source order: the whole 16-byte block at offset 0,
then sub-ranges of lengths 4, 1, 1, 1, 1, 1, 7 at offsets 0, 4, 5, 6,
7, 8, 9 for magic, class, endianness, version, abi, abi version and
padding — so the identity ranges are registered after all
structural-parser ranges. -/
theorem claim_C8_ident_ranges_last (p32 p64 : StructuralParser)
    (filename : String) (buf : List Nat) (pe : ParsedElf)
    (h : ParsedElf.from_bytes p32 p64 filename buf = some (Except.ok pe)) :
    ∃ info1 r1,
      (if (ParsedIdent.from_bytes buf).«class» = ELF_CLASS32 then
          p32 buf (ParsedIdent.from_bytes buf) [] (Ranges.new buf.length)
        else p64 buf (ParsedIdent.from_bytes buf) [] (Ranges.new buf.length)) =
        Except.ok (info1, r1) ∧
      some pe.ranges =
        ((r1.add_range 0 16 RangeType.Ident).bind fun r =>
         (r.add_range 0 4 (RangeType.HeaderDetail "magic")).bind fun r =>
         (r.add_range 4 1 (RangeType.HeaderDetail "class")).bind fun r =>
         (r.add_range 5 1 (RangeType.HeaderDetail "data")).bind fun r =>
         (r.add_range 6 1 (RangeType.HeaderDetail "ver")).bind fun r =>
         (r.add_range 7 1 (RangeType.HeaderDetail "abi")).bind fun r =>
         (r.add_range 8 1 (RangeType.HeaderDetail "abi_ver")).bind fun r =>
         r.add_range 9 7 (RangeType.HeaderDetail "pad")) := by
  obtain ⟨info1, r1, info2, r2, hd, hp, ha, hpe⟩ :=
    ParsedElf.from_bytes_ok_inv p32 p64 filename buf pe h
  refine ⟨info1, r1, hd, ?_⟩
  subst hpe
  exact ha.symm

theorem claim_C8_witness :
    ∃ info1 r1,
      (if (ParsedIdent.from_bytes sample_buf).«class» = ELF_CLASS32 then
          stub_parse_ok sample_buf (ParsedIdent.from_bytes sample_buf) []
            (Ranges.new sample_buf.length)
        else stub_parse_ok sample_buf (ParsedIdent.from_bytes sample_buf) []
            (Ranges.new sample_buf.length)) = Except.ok (info1, r1) ∧
      some sample_parsed.ranges =
        ((r1.add_range 0 16 RangeType.Ident).bind fun r =>
         (r.add_range 0 4 (RangeType.HeaderDetail "magic")).bind fun r =>
         (r.add_range 4 1 (RangeType.HeaderDetail "class")).bind fun r =>
         (r.add_range 5 1 (RangeType.HeaderDetail "data")).bind fun r =>
         (r.add_range 6 1 (RangeType.HeaderDetail "ver")).bind fun r =>
         (r.add_range 7 1 (RangeType.HeaderDetail "abi")).bind fun r =>
         (r.add_range 8 1 (RangeType.HeaderDetail "abi_ver")).bind fun r =>
         r.add_range 9 7 (RangeType.HeaderDetail "pad")) :=
  claim_C8_ident_ranges_last stub_parse_ok stub_parse_ok "f" sample_buf
    sample_parsed (by decide)

/-- C9: the store is created with one slot per byte (`new c` has `c`
slots); a successful `addRange` never changes the slot count
(`lookupRangeEnds` is a pure query returning only a count, so it cannot
change the store); and on every successful parse whose structural
parsers preserve the slot count — their contract — the result satisfies
`contents.length = ranges.data.length`. -/
theorem claim_C9_slot_invariant :
    (∀ c, (Ranges.new c).data.length = c) ∧
    (∀ (r : Ranges) (s l : Nat) (t : RangeType) (r2 : Ranges),
      r.add_range s l t = some r2 → r2.data.length = r.data.length) ∧
    (∀ (p32 p64 : StructuralParser) (filename : String) (buf : List Nat)
      (pe : ParsedElf),
      (∀ b i info rg info2 rg2, p32 b i info rg = Except.ok (info2, rg2) →
        rg2.data.length = rg.data.length) →
      (∀ b i info rg info2 rg2, p64 b i info rg = Except.ok (info2, rg2) →
        rg2.data.length = rg.data.length) →
      ParsedElf.from_bytes p32 p64 filename buf = some (Except.ok pe) →
      pe.contents.length = pe.ranges.data.length) := by
  refine ⟨fun c => by simp [Ranges.new], Ranges.add_range_length, ?_⟩
  intro p32 p64 filename buf pe h32 h64 h
  obtain ⟨info1, r1, info2, r2, hd, hp, ha, hpe⟩ :=
    ParsedElf.from_bytes_ok_inv p32 p64 filename buf pe h
  subst hpe
  have hlen2 := ParsedElf.add_ident_ranges_length r1 r2 ha
  by_cases hc : (ParsedIdent.from_bytes buf).«class» = ELF_CLASS32
  · rw [if_pos hc] at hd
    have h1 := h32 _ _ _ _ _ _ hd
    simp only [Ranges.new, List.length_replicate] at h1
    simp only [Ranges.new]
    omega
  · rw [if_neg hc] at hd
    have h1 := h64 _ _ _ _ _ _ hd
    simp only [Ranges.new, List.length_replicate] at h1
    simp only [Ranges.new]
    omega

theorem claim_C9_witness :
    ParsedElf.from_bytes stub_parse_ok stub_parse_ok "f" sample_buf =
      some (Except.ok sample_parsed) ∧
    sample_parsed.contents.length = sample_parsed.ranges.data.length :=
  ⟨by decide,
    claim_C9_slot_invariant.2.2 stub_parse_ok stub_parse_ok "f" sample_buf
      sample_parsed
      (by
        intro b i info rg info2 rg2 hh
        simp [stub_parse_ok] at hh
        rw [hh.2])
      (by
        intro b i info rg info2 rg2 hh
        simp [stub_parse_ok] at hh
        rw [hh.2])
      (by decide)⟩
